import Mathlib

/-!
Verification of the Capestone-ml clinical-decision-support repository.

The development shallowly embeds the pure orchestration and data-reshaping
logic of the repository:

* `flow.py` — the `CdssPipeline` crewai `Flow`: its step graph (`@start` /
  `@listen` decorators) and the data flow between the step methods;
* `src/hugging_face_ner.py` — post-processing of NER model output
  (`process_ner_output`, `generate_clean_ner_report`); the neural model
  itself is abstracted as the list of decoded tokens and predicted labels;
* `src/output_pydantic.py` — the pydantic output schemas, as structures;
* `app.py` — the six FastAPI POST endpoints and their exception handling;
* `src/crew/medicine_rag_agent.py` — the RAG helper `answer_query` and the
  FAISS index bootstrap, with the vector store and LLM abstracted as
  function-valued parameters.

Python exceptions are modelled with `Except String`; Python dictionaries
either as association lists or as records whose field names are the dict
keys; floating-point relevance scores as rationals (only their order is
used).
-/

namespace CapestoneML

/-! ### The CdssPipeline step graph (flow.py)

`CdssPipeline` has six decorated methods: one `@start()` and five
`@listen(...)`.  `report_writing_method` listens on
`and_(ner_validation_method, prelim_diag_method, best_practises)`. -/

inductive FlowStep where
  | nerReport        -- initial_hugging_face_ner_report, @start()
  | nerValidation    -- ner_validation_method, @listen(initial_hugging_face_ner_report)
  | prelimDiag       -- prelim_diag_method, @listen(ner_validation_method)
  | extractDiag      -- extract_diagnosis_method, @listen(prelim_diag_method)
  | bestPractises    -- best_practises, @listen(extract_diagnosis_method)
  | reportWriting    -- report_writing_method, @listen(and_(...))
deriving DecidableEq, Fintype

open FlowStep

/-- The trigger dependencies of each step, read off the decorators in
`flow.py`: `@start()` has none, `@listen(m)` has `[m]`, and
`@listen(and_(a, b, c))` has `[a, b, c]`. -/
def triggers : FlowStep → List FlowStep
  | nerReport => []
  | nerValidation => [nerReport]
  | prelimDiag => [nerValidation]
  | extractDiag => [prelimDiag]
  | bestPractises => [extractDiag]
  | reportWriting => [nerValidation, prelimDiag, bestPractises]

/-- A step is a start step when it has no trigger dependency
(the `@start()` decorator). -/
def isStartStep (s : FlowStep) : Bool := triggers s = []

/-- The decorated step methods of `CdssPipeline`, in source order. -/
def flowSteps : List FlowStep :=
  [nerReport, nerValidation, prelimDiag, extractDiag, bestPractises, reportWriting]

/-- The execution order forced by the trigger graph. -/
def canonicalRun : List FlowStep :=
  [nerReport, nerValidation, prelimDiag, extractDiag, bestPractises, reportWriting]

/-- A complete run of the flow: a duplicate-free schedule of all steps in
which every step comes strictly after each of its triggers. -/
def validRun (run : List FlowStep) : Prop :=
  run.Nodup ∧ (∀ s : FlowStep, s ∈ run) ∧
    ∀ s ∈ run, ∀ t ∈ triggers s, run.indexOf t < run.indexOf s

instance (run : List FlowStep) : Decidable (validRun run) := by
  unfold validRun; infer_instance

lemma validRun_length {run : List FlowStep} (h : validRun run) :
    run.length = 6 := by
  obtain ⟨hnd, hall, _⟩ := h
  have hle : run.length ≤ 6 := by
    have := hnd.length_le_card
    simpa using this
  have hge : 6 ≤ run.length := by
    have hsub : (Finset.univ : Finset FlowStep) ⊆ run.toFinset := by
      intro s _; simpa using hall s
    have hcards := Finset.card_le_card hsub
    have htf : run.toFinset.card = run.length := List.toFinset_card_of_nodup hnd
    simpa [htf] using hcards
  omega

lemma validRun_indexOf_lt {run : List FlowStep} (h : validRun run)
    {s t : FlowStep} (ht : t ∈ triggers s) :
    run.indexOf t < run.indexOf s :=
  h.2.2 s (h.2.1 s) t ht

/-- The trigger graph admits exactly one schedule: every valid run is the
canonical source-order run. -/
lemma validRun_eq_canonical {run : List FlowStep} (h : validRun run) :
    run = canonicalRun := by
  have hlen := validRun_length h
  have hmem : ∀ s : FlowStep, s ∈ run := h.2.1
  have ha : run.indexOf nerReport < run.indexOf nerValidation :=
    validRun_indexOf_lt h (by simp [triggers])
  have hb : run.indexOf nerValidation < run.indexOf prelimDiag :=
    validRun_indexOf_lt h (by simp [triggers])
  have hc : run.indexOf prelimDiag < run.indexOf extractDiag :=
    validRun_indexOf_lt h (by simp [triggers])
  have hd : run.indexOf extractDiag < run.indexOf bestPractises :=
    validRun_indexOf_lt h (by simp [triggers])
  have he : run.indexOf bestPractises < run.indexOf reportWriting :=
    validRun_indexOf_lt h (by simp [triggers])
  have hf : run.indexOf reportWriting < run.length :=
    List.indexOf_lt_length.2 (hmem reportWriting)
  have h0 : run.indexOf nerReport = 0 := by omega
  have h1 : run.indexOf nerValidation = 1 := by omega
  have h2 : run.indexOf prelimDiag = 2 := by omega
  have h3 : run.indexOf extractDiag = 3 := by omega
  have h4 : run.indexOf bestPractises = 4 := by omega
  have h5 : run.indexOf reportWriting = 5 := by omega
  have hget : ∀ s : FlowStep, ∀ hs : run.indexOf s < run.length,
      run.get ⟨run.indexOf s, hs⟩ = s := fun s hs => List.indexOf_get hs
  apply List.ext_get (by simp [hlen, canonicalRun])
  intro n hn₁ hn₂
  have hn6 : n < 6 := by simpa [canonicalRun] using hn₂
  interval_cases n
  · have := hget nerReport (by omega)
    simp only [h0] at this
    simpa [canonicalRun] using this
  · have := hget nerValidation (by omega)
    simp only [h1] at this
    simpa [canonicalRun] using this
  · have := hget prelimDiag (by omega)
    simp only [h2] at this
    simpa [canonicalRun] using this
  · have := hget extractDiag (by omega)
    simp only [h3] at this
    simpa [canonicalRun] using this
  · have := hget bestPractises (by omega)
    simp only [h4] at this
    simpa [canonicalRun] using this
  · have := hget reportWriting (by omega)
    simp only [h5] at this
    simpa [canonicalRun] using this

/-! ### NER post-processing (src/hugging_face_ner.py)

The token classifier itself is a pretrained neural network and is
abstracted: what the repository computes is the pure post-processing of the
decoded tokens and predicted labels, embedded below. -/

/-- Python `s.replace(c, "")` for a one-character pattern: removes every
occurrence of the character. -/
def removeChar (c : Char) (s : String) : String :=
  ⟨s.data.filter (fun a => a != c)⟩

/-- Python `s.lstrip(c)`: strips every leading occurrence of the
character. -/
def lstripChar (c : Char) (s : String) : String :=
  ⟨s.data.dropWhile (fun a => a == c)⟩

/-- Python `s.startswith(pre)`. -/
def strStartsWith (s pre : String) : Bool :=
  pre.data.isPrefixOf s.data

/-- Python `s[n:]` (drop the first `n` characters). -/
def strDrop (s : String) (n : Nat) : String :=
  ⟨s.data.drop n⟩

/-- `process_ner_output` (src/hugging_face_ner.py, lines 11-51), restricted
to its pure tail: `tokens` are the decoded wordpiece tokens of the encoding
and `predicted_labels` the argmax labels, in position order.  It zips them,
keeps the pairs whose label is not `"O"` (left-stripping `"▁"` from the
token), and accumulates the distinct categories `entry[2:]` of the labels
that start with `"B"`, in first-occurrence order. -/
def process_ner_output (tokens predicted_labels : List String) :
    List (String × String) × List String :=
  let result := tokens.zip predicted_labels
  let filtered_result :=
    (result.filter (fun p => p.2 != "O")).map
      (fun p => (lstripChar '▁' p.1, p.2))
  let unique_tags :=
    predicted_labels.foldl
      (fun acc entry =>
        if strStartsWith entry "B" && !acc.contains (strDrop entry 2) then
          acc ++ [strDrop entry 2]
        else acc) []
  (filtered_result, unique_tags)

lemma uniqueTagsFold_spec (labels : List String) :
    ∀ acc : List String, acc.Nodup →
      (labels.foldl
        (fun acc entry =>
          if strStartsWith entry "B" && !acc.contains (strDrop entry 2) then
            acc ++ [strDrop entry 2]
          else acc) acc).Nodup ∧
      ∀ x, x ∈ labels.foldl
        (fun acc entry =>
          if strStartsWith entry "B" && !acc.contains (strDrop entry 2) then
            acc ++ [strDrop entry 2]
          else acc) acc ↔
        x ∈ acc ∨ ∃ l ∈ labels, strStartsWith l "B" = true ∧ strDrop l 2 = x := by
  induction labels with
  | nil => intro acc hacc; simpa using hacc
  | cons e rest ih =>
    intro acc hacc
    simp only [List.foldl_cons]
    by_cases hcond : (strStartsWith e "B" && !acc.contains (strDrop e 2)) = true
    · rw [if_pos hcond]
      rw [Bool.and_eq_true] at hcond
      obtain ⟨hBe, hnc⟩ := hcond
      have hnotmem : strDrop e 2 ∉ acc := by simpa using hnc
      have hacc2 : (acc ++ [strDrop e 2]).Nodup := by
        simp [List.nodup_append, hacc, hnotmem]
      obtain ⟨hnd, hmem⟩ := ih (acc ++ [strDrop e 2]) hacc2
      refine ⟨hnd, fun x => ?_⟩
      rw [hmem x]
      constructor
      · rintro (hx | ⟨l, hl, hBl, hdl⟩)
        · rcases List.mem_append.1 hx with hx | hx
          · exact Or.inl hx
          · refine Or.inr ⟨e, by simp, hBe, ?_⟩
            exact (List.mem_singleton.1 hx).symm
        · exact Or.inr ⟨l, by simp [hl], hBl, hdl⟩
      · rintro (hx | ⟨l, hl, hBl, hdl⟩)
        · exact Or.inl (by simp [hx])
        · rcases List.mem_cons.1 hl with rfl | hl
          · exact Or.inl (by simp [hdl])
          · exact Or.inr ⟨l, hl, hBl, hdl⟩
    · rw [if_neg hcond]
      obtain ⟨hnd, hmem⟩ := ih acc hacc
      refine ⟨hnd, fun x => ?_⟩
      rw [hmem x]
      constructor
      · rintro (hx | ⟨l, hl, hBl, hdl⟩)
        · exact Or.inl hx
        · exact Or.inr ⟨l, by simp [hl], hBl, hdl⟩
      · rintro (hx | ⟨l, hl, hBl, hdl⟩)
        · exact Or.inl hx
        · rcases List.mem_cons.1 hl with rfl | hl
          · left
            by_contra hxa
            apply hcond
            rw [Bool.and_eq_true]
            refine ⟨hBl, ?_⟩
            rw [hdl]
            simpa using hxa
          · exact Or.inr ⟨l, hl, hBl, hdl⟩

/-- Python `report[key].append(value)` on an insertion-ordered dict,
embedded as an association list from entity categories to collected
entities: appending under a key that is not present raises `KeyError`. -/
def listAppendAt (r : List (String × List String)) (k : String) (v : String) :
    Except String (List (String × List String)) :=
  match r with
  | [] => .error "KeyError"
  | (k0, vs) :: rest =>
    if k0 = k then .ok ((k0, vs ++ [v]) :: rest)
    else (listAppendAt rest k v).map (fun r2 => (k0, vs) :: r2)

/-- The entity flush of `generate_clean_ner_report`
(`if current_entity: report[current_label].append(" ".join(current_entity))`),
executed when a `B-` tag starts a new entity, when a token breaks the
current entity, and once more after the loop.  Flushing a nonempty entity
while `current_label` is `None` indexes the dict with `None`, a missing
key. -/
def flushEntity (report : List (String × List String)) (curEntity : List String)
    (curLabel : Option String) : Except String (List (String × List String)) :=
  match curEntity, curLabel with
  | [], _ => .ok report
  | _ :: _, none => .error "KeyError"
  | t :: ts, some l => listAppendAt report l (String.intercalate " " (t :: ts))

/-- The token loop of `generate_clean_ner_report` (src/hugging_face_ner.py,
lines 63-83), with `report`, `current_entity` and `current_label` passed
explicitly. -/
def reportLoop : List (String × String) → List (String × List String) →
    List String → Option String → Except String (List (String × List String))
  | [], report, curEntity, curLabel => flushEntity report curEntity curLabel
  | (token, tag) :: rest, report, curEntity, curLabel =>
    if removeChar '▁' token = "[CLS]" ∨ removeChar '▁' token = "[SEP]" then
      reportLoop rest report curEntity curLabel
    else if strStartsWith tag "B-" = true then
      match flushEntity report curEntity curLabel with
      | .error e => .error e
      | .ok r2 => reportLoop rest r2 [removeChar '▁' token] (some (strDrop tag 2))
    else if strStartsWith tag "I-" = true ∧ curLabel = some (strDrop tag 2) then
      reportLoop rest report (curEntity ++ [removeChar '▁' token]) curLabel
    else
      match flushEntity report curEntity curLabel with
      | .error e => .error e
      | .ok r2 => reportLoop rest r2 [] none

/-- First-occurrence deduplication: the key semantics of a Python dict
comprehension, which keeps the first occurrence of each key. -/
def firstOccur (l : List String) : List String :=
  l.foldl (fun acc t => if acc.contains t then acc else acc ++ [t]) []

/-- `generate_clean_ner_report` (src/hugging_face_ner.py, lines 54-85): the
report dict is initialised as
`{tag: [] for tag in unique_tags if tag != "SEVERITY"}` and filled by the
token loop; a `KeyError` surfaces as `Except.error`. -/
def generate_clean_ner_report (tagged_tokens : List (String × String))
    (unique_tags : List String) : Except String (List (String × List String)) :=
  reportLoop tagged_tokens
    ((firstOccur (unique_tags.filter (fun t => t != "SEVERITY"))).map
      (fun t => (t, ([] : List String)))) [] none

/-- Every entity stored in the report is a space-join of tokens none of
which is `"[CLS]"` or `"[SEP]"`. -/
def EntOk (r : List (String × List String)) : Prop :=
  ∀ kv ∈ r, ∀ ent ∈ kv.2, ∃ toks : List String,
    ent = String.intercalate " " toks ∧ ∀ t ∈ toks, t ≠ "[CLS]" ∧ t ≠ "[SEP]"

lemma entOk_nil_values (keys : List String) :
    EntOk (keys.map fun t => (t, ([] : List String))) := by
  intro kv hkv ent hent
  rcases List.mem_map.1 hkv with ⟨t, _, rfl⟩
  simp at hent

lemma mem_firstOccur {x : String} {l : List String} :
    x ∈ firstOccur l ↔ x ∈ l := by
  have main : ∀ l acc : List String,
      x ∈ l.foldl (fun acc t => if acc.contains t then acc else acc ++ [t]) acc ↔
        x ∈ acc ∨ x ∈ l := by
    intro l
    induction l with
    | nil => intro acc; simp
    | cons e rest ih =>
      intro acc
      simp only [List.foldl_cons]
      by_cases he : acc.contains e = true
      · rw [if_pos he]
        rw [ih acc]
        constructor
        · rintro (h | h)
          · exact Or.inl h
          · exact Or.inr (by simp [h])
        · rintro (h | h)
          · exact Or.inl h
          · rcases List.mem_cons.1 h with rfl | h
            · exact Or.inl (by simpa using he)
            · exact Or.inr h
      · rw [if_neg he]
        rw [ih (acc ++ [e])]
        constructor
        · rintro (h | h)
          · rcases List.mem_append.1 h with h | h
            · exact Or.inl h
            · exact Or.inr (by simp [List.mem_singleton.1 h])
          · exact Or.inr (by simp [h])
        · rintro (h | h)
          · exact Or.inl (by simp [h])
          · rcases List.mem_cons.1 h with rfl | h
            · exact Or.inl (by simp)
            · exact Or.inr h
  simpa [firstOccur] using main l []

lemma listAppendAt_spec (k v : String) :
    ∀ r : List (String × List String), k ∈ r.map Prod.fst →
      ∃ r2, listAppendAt r k v = .ok r2 ∧
        r2.map Prod.fst = r.map Prod.fst ∧
        ∀ kv ∈ r2, ∀ ent ∈ kv.2, (∃ kv0 ∈ r, ent ∈ kv0.2) ∨ ent = v := by
  intro r
  induction r with
  | nil => simp
  | cons hd tl ih =>
    rcases hd with ⟨k0, vs⟩
    intro hk
    by_cases hk0 : k0 = k
    · refine ⟨(k0, vs ++ [v]) :: tl, by simp [listAppendAt, hk0], by simp, ?_⟩
      intro kv hkv ent hent
      rcases List.mem_cons.1 hkv with rfl | hkv
      · rcases List.mem_append.1 hent with h | h
        · exact Or.inl ⟨(k0, vs), by simp, h⟩
        · exact Or.inr (List.mem_singleton.1 h)
      · exact Or.inl ⟨kv, by simp [hkv], hent⟩
    · have hk2 : k ∈ tl.map Prod.fst := by
        rcases (by simpa using hk : k = k0 ∨ k ∈ tl.map Prod.fst) with h | h
        · exact absurd h.symm hk0
        · exact h
      obtain ⟨r2, he, hkeys, hents⟩ := ih hk2
      refine ⟨(k0, vs) :: r2, by simp [listAppendAt, hk0, he, Except.map], by simp [hkeys], ?_⟩
      intro kv hkv ent hent
      rcases List.mem_cons.1 hkv with rfl | hkv
      · exact Or.inl ⟨(k0, vs), by simp, hent⟩
      · rcases hents kv hkv ent hent with ⟨kv0, hkv0, hent0⟩ | h
        · exact Or.inl ⟨kv0, by simp [hkv0], hent0⟩
        · exact Or.inr h

/-- Loop-state invariant of `generate_clean_ner_report`: the current label,
when set, is a key of the report dict; a nonempty current entity has a
label; and the current entity holds no `"[CLS]"` / `"[SEP]"` token. -/
def StInv (report : List (String × List String)) (curEntity : List String)
    (curLabel : Option String) : Prop :=
  (∀ l, curLabel = some l → l ∈ report.map Prod.fst) ∧
  (curEntity ≠ [] → curLabel ≠ none) ∧
  (∀ t ∈ curEntity, t ≠ "[CLS]" ∧ t ≠ "[SEP]")

lemma flushEntity_spec {report : List (String × List String)}
    {curE : List String} {curL : Option String}
    (hinv : StInv report curE curL) (hrep : EntOk report) :
    ∃ r2, flushEntity report curE curL = .ok r2 ∧
      r2.map Prod.fst = report.map Prod.fst ∧ EntOk r2 := by
  obtain ⟨hkey, hne, htoks⟩ := hinv
  match curE, htoks with
  | [], _ => exact ⟨report, rfl, rfl, hrep⟩
  | (t :: ts), htoks =>
    cases hcl : curL with
    | none => exact absurd hcl (hne (by simp))
    | some l =>
      have hlk : l ∈ report.map Prod.fst := hkey l hcl
      obtain ⟨r2, he, hkeys, hents⟩ :=
        listAppendAt_spec l (String.intercalate " " (t :: ts)) report hlk
      refine ⟨r2, by simpa [flushEntity] using he, hkeys, ?_⟩
      intro kv hkv ent hent
      rcases hents kv hkv ent hent with ⟨kv0, hkv0, hent0⟩ | rfl
      · exact hrep kv0 hkv0 ent hent0
      · exact ⟨t :: ts, rfl, htoks⟩

lemma reportLoop_spec :
    ∀ (tagged : List (String × String)) (report : List (String × List String))
      (curE : List String) (curL : Option String),
      (∀ p ∈ tagged, strStartsWith p.2 "B-" = true →
        strDrop p.2 2 ∈ report.map Prod.fst) →
      StInv report curE curL → EntOk report →
      ∃ r2, reportLoop tagged report curE curL = .ok r2 ∧
        r2.map Prod.fst = report.map Prod.fst ∧ EntOk r2 := by
  intro tagged
  induction tagged with
  | nil =>
    intro report curE curL _ hinv hrep
    obtain ⟨r2, he, hkeys, hok⟩ := flushEntity_spec hinv hrep
    exact ⟨r2, by simpa [reportLoop] using he, hkeys, hok⟩
  | cons p rest ih =>
    rcases p with ⟨token, tag⟩
    intro report curE curL hB hinv hrep
    have hBrest : ∀ q ∈ rest, strStartsWith q.2 "B-" = true →
        strDrop q.2 2 ∈ report.map Prod.fst :=
      fun q hq => hB q (by simp [hq])
    by_cases hskip : removeChar '▁' token = "[CLS]" ∨ removeChar '▁' token = "[SEP]"
    · obtain ⟨r2, he, hkeys, hok⟩ := ih report curE curL hBrest hinv hrep
      refine ⟨r2, ?_, hkeys, hok⟩
      simp only [reportLoop]
      rw [if_pos hskip]
      exact he
    · by_cases hBtag : strStartsWith tag "B-" = true
      · obtain ⟨rf, hef, hkf, hokf⟩ := flushEntity_spec hinv hrep
        have hBrest2 : ∀ q ∈ rest, strStartsWith q.2 "B-" = true →
            strDrop q.2 2 ∈ rf.map Prod.fst := by
          intro q hq hq2
          rw [hkf]; exact hBrest q hq hq2
        have hgood : removeChar '▁' token ≠ "[CLS]" ∧ removeChar '▁' token ≠ "[SEP]" := by
          constructor
          · exact fun h => hskip (Or.inl h)
          · exact fun h => hskip (Or.inr h)
        have hinv2 : StInv rf [removeChar '▁' token] (some (strDrop tag 2)) := by
          refine ⟨?_, by simp, ?_⟩
          · intro l hl
            rw [hkf]
            cases hl
            exact hB (token, tag) (by simp) hBtag
          · intro t ht
            rcases List.mem_singleton.1 ht with rfl
            exact hgood
        obtain ⟨r2, he, hkeys, hok⟩ := ih rf _ _ hBrest2 hinv2 hokf
        refine ⟨r2, ?_, by rw [hkeys, hkf], hok⟩
        simp only [reportLoop]
        rw [if_neg hskip, if_pos hBtag, hef]
        exact he
      · by_cases hItag : strStartsWith tag "I-" = true ∧ curL = some (strDrop tag 2)
        · have hgood : removeChar '▁' token ≠ "[CLS]" ∧ removeChar '▁' token ≠ "[SEP]" := by
            constructor
            · exact fun h => hskip (Or.inl h)
            · exact fun h => hskip (Or.inr h)
          have hinv2 : StInv report (curE ++ [removeChar '▁' token]) curL := by
            refine ⟨hinv.1, ?_, ?_⟩
            · intro _
              rw [hItag.2]
              simp
            · intro t ht
              rcases List.mem_append.1 ht with ht | ht
              · exact hinv.2.2 t ht
              · rcases List.mem_singleton.1 ht with rfl
                exact hgood
          obtain ⟨r2, he, hkeys, hok⟩ := ih report _ curL hBrest hinv2 hrep
          refine ⟨r2, ?_, hkeys, hok⟩
          simp only [reportLoop]
          rw [if_neg hskip, if_neg hBtag, if_pos hItag]
          exact he
        · obtain ⟨rf, hef, hkf, hokf⟩ := flushEntity_spec hinv hrep
          have hBrest2 : ∀ q ∈ rest, strStartsWith q.2 "B-" = true →
              strDrop q.2 2 ∈ rf.map Prod.fst := by
            intro q hq hq2
            rw [hkf]; exact hBrest q hq hq2
          have hinv2 : StInv rf [] none := ⟨by simp, by simp, by simp⟩
          obtain ⟨r2, he, hkeys, hok⟩ := ih rf [] none hBrest2 hinv2 hokf
          refine ⟨r2, ?_, by rw [hkeys, hkf], hok⟩
          simp only [reportLoop]
          rw [if_neg hskip, if_neg hBtag, if_neg hItag, hef]
          exact he

/-! ### Heterogeneous crew outputs and `extract_diagnosis_method` (flow.py) -/

/-- One element of the `entries` collection of a preliminary-diagnosis
result.  `attrEntry` models an attribute-bearing object whose
`preliminary_diagnosis` attribute holds `pd` (absent when `none`);
`dictEntry` models a plain dict whose `"preliminary_diagnosis"` key holds
`pd` (absent when `none`). -/
inductive PrelimEntry where
  | attrEntry (pd : Option String)
  | dictEntry (pd : Option String)
deriving DecidableEq

/-- The heterogeneous value `prelim_diag_crew.kickoff` can hand to
`extract_diagnosis_method`: a subscriptable non-dict object whose
`["entries"]` yields a collection, a dict that may or may not hold an
`"entries"` key, or raw text. -/
inductive PrelimReport where
  | objWithEntries (entries : List PrelimEntry)
  | dictReport (entries : Option (List PrelimEntry))
  | rawText (s : String)
deriving DecidableEq

/-- Python `str(...)` of a `PrelimReport`: the text itself for raw text,
and for the other shapes a rendering whose exact form the code never
inspects. -/
def pyStr : PrelimReport → String
  | .objWithEntries es => "object with " ++ toString es.length ++ " entries"
  | .dictReport none => "dict"
  | .dictReport (some es) => "dict with " ++ toString es.length ++ " entries"
  | .rawText s => s

/-- `entry.preliminary_diagnosis`: ok on an attribute-bearing entry whose
attribute is present; `AttributeError` on a dict entry or a missing
attribute. -/
def attrPreliminaryDiagnosis : PrelimEntry → Except String String
  | .attrEntry (some s) => .ok s
  | .attrEntry none => .error "AttributeError"
  | .dictEntry _ => .error "AttributeError"

/-- `entry["preliminary_diagnosis"]`: ok on a dict entry whose key is
present; `KeyError` on a missing key, `TypeError` on an object entry. -/
def keyPreliminaryDiagnosis : PrelimEntry → Except String String
  | .dictEntry (some s) => .ok s
  | .dictEntry none => .error "KeyError"
  | .attrEntry _ => .error "TypeError"

/-- `prelim_report["entries"]`. -/
def subscriptEntries : PrelimReport → Except String (List PrelimEntry)
  | .objWithEntries es => .ok es
  | .dictReport (some es) => .ok es
  | .dictReport none => .error "KeyError"
  | .rawText _ => .error "TypeError"

/-- A Python list comprehension `[f(entry) for entry in entries]` with
exception propagation: the first raised exception aborts the whole
comprehension. -/
def listComp (f : PrelimEntry → Except String String) :
    List PrelimEntry → Except String (List String)
  | [] => .ok []
  | e :: es =>
    match f e with
    | .error msg => .error msg
    | .ok v =>
      match listComp f es with
      | .error msg => .error msg
      | .ok vs => .ok (v :: vs)

/-- `extract_diagnosis_method` (flow.py, lines 57-67).  The `try` block is
`[entry.preliminary_diagnosis for entry in prelim_report["entries"]]`; on
any exception, if the value is a dict containing `"entries"` the fallback
comprehension reads the `"preliminary_diagnosis"` key of each entry (and
any error it hits is uncaught), otherwise the result is
`[str(prelim_report)]`. -/
def extract_diagnosis_method (prelim_report : PrelimReport) :
    Except String (List String) :=
  match
    ((match subscriptEntries prelim_report with
      | .error msg => .error msg
      | .ok es => listComp attrPreliminaryDiagnosis es) :
      Except String (List String)) with
  | .ok diagnosis => .ok diagnosis
  | .error _ =>
    match prelim_report with
    | .dictReport (some es) => listComp keyPreliminaryDiagnosis es
    | _ => .ok [pyStr prelim_report]

/-- The entry carries the `preliminary_diagnosis` attribute. -/
def hasAttrPd : PrelimEntry → Bool
  | .attrEntry (some _) => true
  | _ => false

/-- The entry is a dict carrying the `"preliminary_diagnosis"` key. -/
def hasKeyPd : PrelimEntry → Bool
  | .dictEntry (some _) => true
  | _ => false

/-- The inputs on which the fallback chain of `extract_diagnosis_method`
meets no uncaught error: whenever the value is a dict holding `"entries"`,
its entries are all attribute-bearing with the field present, or all dicts
with the key present. -/
def dictEntriesOk : PrelimReport → Bool
  | .dictReport (some es) => es.all hasAttrPd || es.all hasKeyPd
  | _ => true

/-- The diagnosis string an entry carries, in either shape. -/
def pdValue : PrelimEntry → String
  | .attrEntry (some s) => s
  | .dictEntry (some s) => s
  | _ => ""

/-- The normalization the spec describes (spec-side definition, for the
refinement statement): field values of the entries when an entries
collection is readable, and the singleton string form otherwise. -/
def extractSpec : PrelimReport → List String
  | .objWithEntries es =>
      if es.all hasAttrPd then es.map pdValue
      else [pyStr (.objWithEntries es)]
  | .dictReport (some es) => es.map pdValue
  | pr => [pyStr pr]

/-! ### Tavily best-practices search (flow.py, lines 72-97) -/

/-- One Tavily search result: a dict from which the code reads `"title"`,
`"url"`, `"content"` and `"score"` with `dict.get` defaults.  The
relevance score is a rational (only its order against 0.5 is used). -/
structure TavilyResult where
  title : Option String
  url : Option String
  content : Option String
  score : Option ℚ
deriving DecidableEq

/-- A Tavily search response; `response.get("results", [])` reads the
optional `"results"` key. -/
structure TavilyResponse where
  results : Option (List TavilyResult)
deriving DecidableEq

structure PracticeSummary where
  title : String
  url : String
  summary : String
deriving DecidableEq

structure BestPractice where
  best_practices_for : String
  practices : List PracticeSummary
deriving DecidableEq

/-- The body of the `for entry in diagnosis` loop of `best_practises`:
each diagnosis is searched as `"Best Practices for {entry}"`, the results
with `result.get("score", 0) > 0.5` are reshaped to title/url/summary, and
the pair is appended to the summary list.  The Tavily client is the
function `search`. -/
def bestPracticesLoop (search : String → TavilyResponse)
    (diagnosis : List String) : List BestPractice :=
  diagnosis.foldl
    (fun best_practices_summary entry =>
      best_practices_summary ++
        [{ best_practices_for := entry,
           practices :=
             (((search ("Best Practices for " ++ entry)).results.getD []).filter
                (fun r => decide (mkRat 1 2 < r.score.getD 0))).map
               (fun r => { title := r.title.getD "", url := r.url.getD "",
                           summary := r.content.getD "" }) }])
    []

/-- The per-diagnosis summaries the claim describes: exactly the results
whose score (0 when missing) strictly exceeds 1/2, reshaped. -/
def tavilyFilteredSummaries (response : TavilyResponse) : List PracticeSummary :=
  ((response.results.getD []).filter
      (fun r => decide (mkRat 1 2 < r.score.getD 0))).map
    (fun r => { title := r.title.getD "", url := r.url.getD "",
                summary := r.content.getD "" })

/-! ### Output schemas (src/output_pydantic.py) -/

structure PreliminaryDiagnosisOutput where
  preliminary_diagnosis : String
  reasoning : String
  recommendations : List String
deriving DecidableEq

structure PreliminaryDiagnosisListOutput where
  entries : List PreliminaryDiagnosisOutput
deriving DecidableEq

structure MedicineInfoOutput where
  brand_name : String
  generic_name : String
  composition : List String
  uses : List String
  side_effects : Option (List String)
  precautions : Option (List String)
deriving DecidableEq

structure MedicineComparisonOutput where
  prescribed : MedicineInfoOutput
  alternative : MedicineInfoOutput
  are_equivalent : Bool
  reasoning : String
deriving DecidableEq

/-! ### The CdssPipeline methods, state and kickoff (flow.py) -/

/-- The crewai flow state of `CdssPipeline`, one field per state key the
step methods assign (`self.state["post_ner_report"]`,
`self.state["prelim_report"]`, `self.state["best_practices_summary"]`). -/
structure FlowState (V : Type) where
  post_ner_report : Option V
  prelim_report : Option PrelimReport
  best_practices_summary : Option (List BestPractice)
deriving DecidableEq

def FlowState.initial (V : Type) : FlowState V := ⟨none, none, none⟩

/-- The external services the pipeline calls: the NER model (decoded
tokens and predicted labels for a text), the three crews, and the Tavily
client.  `V` is the output type of the NER-validation crew and `R` that of
the report-writing crew. -/
structure CdssEnv (V R : Type) where
  nerModel : String → List String × List String
  ner_validation_kickoff : (input_text : String) →
    (ner_output : List (String × List String)) → V
  prelim_diag_kickoff : (output_count : Nat) → (post_ner_report : V) → PrelimReport
  tavily_search : String → TavilyResponse
  report_writing_kickoff : (post_ner_report : V) → (prelim_diagnosis : PrelimReport) →
    (best_pracs : List BestPractice) → R

/-- Step 1, `initial_hugging_face_ner_report` (flow.py, lines 22-27): runs
`process_ner_output` on `self.sample_text`, builds the clean report, and
returns the dict `{"report": report, "sample_text": self.sample_text}`
(here the pair `(report, sample_text)`). -/
def initial_hugging_face_ner_report {V R : Type} (env : CdssEnv V R)
    (sample_text : String) :
    Except String (List (String × List String) × String) :=
  (generate_clean_ner_report
      (process_ner_output (env.nerModel sample_text).1 (env.nerModel sample_text).2).1
      (process_ner_output (env.nerModel sample_text).1 (env.nerModel sample_text).2).2).map
    (fun report => (report, sample_text))

/-- Step 2, `ner_validation_method` (flow.py, lines 32-41): kicks off the
validation crew with `input_text = sample_text` and `ner_output = report`,
stores the result under `"post_ner_report"`, and returns it. -/
def ner_validation_method {V R : Type} (env : CdssEnv V R) (st : FlowState V)
    (report_dict : List (String × List String) × String) : FlowState V × V :=
  let post_ner_report := env.ner_validation_kickoff report_dict.2 report_dict.1
  ({ st with post_ner_report := some post_ner_report }, post_ner_report)

/-- Step 3, `prelim_diag_method` (flow.py, lines 46-52): kicks off the
preliminary-diagnosis crew with `output_count = 3` and the validated
report, stores the result under `"prelim_report"`, and returns it. -/
def prelim_diag_method {V R : Type} (env : CdssEnv V R) (st : FlowState V)
    (post_ner_report : V) : FlowState V × PrelimReport :=
  let prelim_report := env.prelim_diag_kickoff 3 post_ner_report
  ({ st with prelim_report := some prelim_report }, prelim_report)

/-- Step 5, `best_practises` (flow.py, lines 72-97): runs the Tavily loop
over the diagnosis strings, stores the summary under
`"best_practices_summary"`, and returns it. -/
def best_practises {V R : Type} (env : CdssEnv V R) (st : FlowState V)
    (diagnosis : List String) : FlowState V × List BestPractice :=
  let best_practices_summary := bestPracticesLoop env.tavily_search diagnosis
  ({ st with best_practices_summary := some best_practices_summary },
    best_practices_summary)

/-- Step 6, `report_writing_method` (flow.py, lines 102-111): reads the
three state keys (a missing key would raise `KeyError`) and kicks off the
report-writing crew on them. -/
def report_writing_method {V R : Type} (env : CdssEnv V R) (st : FlowState V) :
    Except String R :=
  match st.post_ner_report, st.prelim_report, st.best_practices_summary with
  | some post, some prelim, some bp =>
      .ok (env.report_writing_kickoff post prelim bp)
  | _, _, _ => .error "KeyError"

/-- `flow.kickoff()`: the six steps executed in the (unique) order the
trigger graph admits, threading the flow state; returns the final report
together with the final state.  Exceptions propagate. -/
def kickoff {V R : Type} (env : CdssEnv V R) (sample_text : String) :
    Except String (R × FlowState V) :=
  (initial_hugging_face_ner_report env sample_text).bind (fun report_dict =>
    let s2 := ner_validation_method env (FlowState.initial V) report_dict
    let s3 := prelim_diag_method env s2.1 s2.2
    (extract_diagnosis_method s3.2).bind (fun diagnosis =>
      let s4 := best_practises env s3.1 diagnosis
      (report_writing_method env s4.1).map (fun r => (r, s4.1))))

/-! ### The missing crew definitions (src/crew/agents_and_taks.py) -/

/-- Modelled from the spec: `prelim_diag_crew` is defined in
`src/crew/agents_and_taks.py`, a file that is not among the sources.  Per
the spec it performs "generation of ranked preliminary diagnoses", and per
the `PreliminaryDiagnosisListOutput` schema its output is a list of
preliminary-diagnosis entries; the number of entries requested is the
`output_count` input.  `gen` abstracts the language model producing the
ranked entries. -/
def prelim_diag_crew_kickoff {V : Type} (gen : Nat → PreliminaryDiagnosisOutput)
    (output_count : Nat) (post_ner_report : V) : PreliminaryDiagnosisListOutput :=
  ⟨(List.range output_count).map gen⟩

/-! ### FastAPI endpoints (app.py) -/

structure HTTPError where
  status_code : Nat
  detail : String
deriving DecidableEq

structure ResponseMessage where
  response : String
deriving DecidableEq

/-- `POST /agent/ner/` (app.py, lines 54-64).  The crew call is the
parameter `kickoff_fn`, returning a value or the message of a raised
exception. -/
def run_ner (kickoff_fn : (input_text : String) → (ner_output : String) →
    Except String String) (input_text : String) :
    Except HTTPError ResponseMessage :=
  match kickoff_fn input_text "\x7b\x7d" with
  | .ok result => .ok ⟨result⟩
  | .error e => .error ⟨500, "NER Error: " ++ e⟩

/-- `POST /agent/prelim/` (app.py, lines 67-77). -/
def run_prelim (kickoff_fn : (post_ner_report : String) → (output_count : Nat) →
    Except String String) (input_text : String) :
    Except HTTPError ResponseMessage :=
  match kickoff_fn input_text 3 with
  | .ok result => .ok ⟨result⟩
  | .error e => .error ⟨500, "Prelim Error: " ++ e⟩

/-- `POST /agent/report/` (app.py, lines 80-91). -/
def run_report (kickoff_fn : (post_ner_report : String) →
    (prelim_diagnosis : String) → (best_pracs : String) →
    Except String String) (input_text : String) :
    Except HTTPError ResponseMessage :=
  match kickoff_fn input_text "Sample Prelim Diagnosis" "Sample Best Practices" with
  | .ok result => .ok ⟨result⟩
  | .error e => .error ⟨500, "Report Error: " ++ e⟩

/-- `POST /medicine/query` (app.py, lines 98-105). -/
def rag_freeform (answer_fn : String → Except String String) (query : String) :
    Except HTTPError ResponseMessage :=
  match answer_fn query with
  | .ok result => .ok ⟨result⟩
  | .error e => .error ⟨500, "RAG Error: " ++ e⟩

/-- `POST /medicine/info` (app.py, lines 108-115); the endpoint returns
`result.dict()`, i.e. the structured output itself. -/
def medicine_info (get_info : String → Except String MedicineInfoOutput)
    (medicine_name : String) : Except HTTPError MedicineInfoOutput :=
  match get_info medicine_name with
  | .ok result => .ok result
  | .error e => .error ⟨500, "MedicineInfo Error: " ++ e⟩

/-- `POST /medicine/compare` (app.py, lines 118-128). -/
def medicine_compare
    (compare : String → String → Except String MedicineComparisonOutput)
    (original_medicine alternative_medicine : String) :
    Except HTTPError MedicineComparisonOutput :=
  match compare original_medicine alternative_medicine with
  | .ok result => .ok result
  | .error e => .error ⟨500, "MedicineCompare Error: " ++ e⟩

/-! ### Medicine RAG helpers (src/crew/medicine_rag_agent.py) -/

structure Document where
  page_content : String
deriving DecidableEq

/-- The FAISS vector store, abstracted to `similarity_search(query, k)`. -/
structure VectorStore where
  similarity_search : String → Nat → List Document

structure LLMClient where
  invoke : String → String

/-- The prompt f-string of `answer_query` (lines 86-93), with the
retrieved context and the question interpolated. -/
def ragPrompt (context question : String) : String :=
  "You are a helpful medical assistant.\n    Use the following retrieved medical knowledge to answer:\n\n    Context:\n    "
    ++ context ++ "\n\n    Question: " ++ question ++ "\n    Answer:"

/-- `answer_query` (src/crew/medicine_rag_agent.py, lines 81-95): retrieve
`k = 3` documents, join their page contents with newlines, and invoke the
LLM on the prompt. -/
def answer_query (db : VectorStore) (llm : LLMClient) (query : String) : String :=
  let docs := db.similarity_search query 3
  let context := String.intercalate "\n" (docs.map (fun doc => doc.page_content))
  llm.invoke (ragPrompt context query)

/-- The module-level FAISS bootstrap (lines 26-33): load the persisted
index when the path exists, otherwise build the store from the single
Paracetamol document and save it.  The second component records whether
`save_local` ran. -/
def initFaissDb (indexExists : Bool) (load_local : VectorStore)
    (from_documents : List Document → VectorStore) : VectorStore × Bool :=
  if indexExists then (load_local, false)
  else (from_documents [⟨"Paracetamol is used for fever and mild pain."⟩], true)

/-! ### Supporting lemmas -/

instance {ε α : Type} [DecidableEq ε] [DecidableEq α] : DecidableEq (Except ε α) :=
  fun a b =>
    match a, b with
    | .ok x, .ok y => decidable_of_iff (x = y) (by simp)
    | .error x, .error y => decidable_of_iff (x = y) (by simp)
    | .ok _, .error _ => isFalse (by simp)
    | .error _, .ok _ => isFalse (by simp)

lemma listComp_attr_ok : ∀ {es : List PrelimEntry}, es.all hasAttrPd = true →
    listComp attrPreliminaryDiagnosis es = .ok (es.map pdValue) := by
  intro es
  induction es with
  | nil => intro _; rfl
  | cons e rest ih =>
    intro h
    rw [List.all_cons, Bool.and_eq_true] at h
    obtain ⟨he, hrest⟩ := h
    match e, he with
    | .attrEntry (some s), _ =>
      simp [listComp, attrPreliminaryDiagnosis, ih hrest, pdValue]

lemma listComp_attr_error : ∀ {es : List PrelimEntry}, es.all hasAttrPd = false →
    ∃ msg, listComp attrPreliminaryDiagnosis es = .error msg := by
  intro es
  induction es with
  | nil => intro h; simp at h
  | cons e rest ih =>
    intro h
    rw [List.all_cons, Bool.and_eq_false_iff] at h
    rcases h with he | hrest
    · match e, he with
      | .attrEntry none, _ => exact ⟨"AttributeError", rfl⟩
      | .dictEntry pd, _ => exact ⟨"AttributeError", rfl⟩
    · obtain ⟨msg, hmsg⟩ := ih hrest
      match e with
      | .attrEntry (some s) =>
        exact ⟨msg, by simp [listComp, attrPreliminaryDiagnosis, hmsg]⟩
      | .attrEntry none => exact ⟨"AttributeError", rfl⟩
      | .dictEntry pd => exact ⟨"AttributeError", rfl⟩

lemma listComp_key_ok : ∀ {es : List PrelimEntry}, es.all hasKeyPd = true →
    listComp keyPreliminaryDiagnosis es = .ok (es.map pdValue) := by
  intro es
  induction es with
  | nil => intro _; rfl
  | cons e rest ih =>
    intro h
    rw [List.all_cons, Bool.and_eq_true] at h
    obtain ⟨he, hrest⟩ := h
    match e, he with
    | .dictEntry (some s), _ =>
      simp [listComp, keyPreliminaryDiagnosis, ih hrest, pdValue]

lemma foldl_append_singleton {α β : Type} (f : α → β) :
    ∀ (l : List α) (acc : List β),
      l.foldl (fun a x => a ++ [f x]) acc = acc ++ l.map f := by
  intro l
  induction l with
  | nil => intro acc; simp
  | cons e rest ih => intro acc; simp [ih]

lemma bestPracticesLoop_eq_map (search : String → TavilyResponse)
    (diagnosis : List String) :
    bestPracticesLoop search diagnosis =
      diagnosis.map (fun entry =>
        ⟨entry, tavilyFilteredSummaries (search ("Best Practices for " ++ entry))⟩) := by
  have h := foldl_append_singleton
    (fun entry =>
      (⟨entry, tavilyFilteredSummaries (search ("Best Practices for " ++ entry))⟩ :
        BestPractice))
    diagnosis []
  exact h.trans (by simp)

/-- The fully unfolded behaviour of `kickoff`: the NER report is computed
from the input note; the validation crew receives the note and that
report; the preliminary-diagnosis crew receives `3` and the validated
report; the Tavily loop runs on the extracted diagnoses; and the
report-writing crew receives the three upstream results, which are also
the three stored state values. -/
lemma kickoff_eq {V R : Type} (env : CdssEnv V R) (text : String) :
    kickoff env text =
      (generate_clean_ner_report
          (process_ner_output (env.nerModel text).1 (env.nerModel text).2).1
          (process_ner_output (env.nerModel text).1 (env.nerModel text).2).2).bind
        (fun report =>
          (extract_diagnosis_method
              (env.prelim_diag_kickoff 3 (env.ner_validation_kickoff text report))).map
            (fun diagnosis =>
              (env.report_writing_kickoff
                 (env.ner_validation_kickoff text report)
                 (env.prelim_diag_kickoff 3 (env.ner_validation_kickoff text report))
                 (bestPracticesLoop env.tavily_search diagnosis),
               ⟨some (env.ner_validation_kickoff text report),
                some (env.prelim_diag_kickoff 3 (env.ner_validation_kickoff text report)),
                some (bestPracticesLoop env.tavily_search diagnosis)⟩))) := by
  cases hg : generate_clean_ner_report
      (process_ner_output (env.nerModel text).1 (env.nerModel text).2).1
      (process_ner_output (env.nerModel text).1 (env.nerModel text).2).2 with
  | error e =>
    simp [kickoff, initial_hugging_face_ner_report, ner_validation_method,
      prelim_diag_method, best_practises, report_writing_method, hg,
      Except.map, Except.bind, FlowState.initial]
  | ok report =>
    cases hx : extract_diagnosis_method
        (env.prelim_diag_kickoff 3 (env.ner_validation_kickoff text report)) with
    | error e =>
      simp [kickoff, initial_hugging_face_ner_report, ner_validation_method,
        prelim_diag_method, best_practises, report_writing_method, hg, hx,
        Except.map, Except.bind, FlowState.initial]
    | ok diagnosis =>
      simp [kickoff, initial_hugging_face_ner_report, ner_validation_method,
        prelim_diag_method, best_practises, report_writing_method, hg, hx,
        Except.map, Except.bind, FlowState.initial]

/-- A concrete environment on which the whole pipeline evaluates. -/
def sampleEnv : CdssEnv String String where
  nerModel := fun _ => (["▁fever"], ["B-SIGN"])
  ner_validation_kickoff := fun input_text _ => input_text
  prelim_diag_kickoff := fun _ post => .rawText post
  tavily_search := fun _ => ⟨some [⟨some "T", some "U", some "C", some 1⟩]⟩
  report_writing_kickoff := fun post _ _ => post

/-! ### The claims -/

/-- C1, counterexample: the step graph of `CdssPipeline` does not have
five nodes — it has six decorated step methods. -/
theorem C1_counterexample :
    flowSteps.length = 6 ∧ ¬ flowSteps.length = 5 := by decide

/-- C1 (amended): the `CdssPipeline` flow is a fixed SIX-step
linear/fan-in graph: its step graph has exactly six distinct nodes, a
single start node, every non-start step is triggered by a fixed listen
dependency, and the schedule is fully determined (no dynamic scheduling):
every valid run is the canonical source-order run. -/
theorem C1_amended_graph :
    flowSteps.length = 6 ∧ flowSteps.Nodup ∧
    (∀ s : FlowStep, isStartStep s = true ↔ s = FlowStep.nerReport) ∧
    (∀ s : FlowStep, s ≠ FlowStep.nerReport → triggers s ≠ []) ∧
    ∀ run : List FlowStep, validRun run → run = canonicalRun := by
  refine ⟨by decide, by decide, by decide, by decide, ?_⟩
  intro run h
  exact validRun_eq_canonical h

/-- C1 witness: the canonical run is a valid run, and it is equal to
itself as the amended claim forces. -/
theorem C1_witness : validRun canonicalRun ∧ canonicalRun = canonicalRun :=
  ⟨by decide, C1_amended_graph.2.2.2.2 canonicalRun (by decide)⟩

/-- C2: in every run of the pipeline the stages execute in the order
NER extraction, then validation, then preliminary diagnoses, then the
best-practices web search, then report synthesis; and along the data path
the validation crew receives both the note and the NER report, the
preliminary-diagnosis crew the validated report, the search loop the
extracted diagnoses, and the report-writing crew the synthesis inputs. -/
theorem C2_stage_order :
    (∀ run : List FlowStep, validRun run →
      run.indexOf FlowStep.nerReport < run.indexOf FlowStep.nerValidation ∧
      run.indexOf FlowStep.nerValidation < run.indexOf FlowStep.prelimDiag ∧
      run.indexOf FlowStep.prelimDiag < run.indexOf FlowStep.bestPractises ∧
      run.indexOf FlowStep.bestPractises < run.indexOf FlowStep.reportWriting) ∧
    ∀ (V R : Type) (env : CdssEnv V R) (text : String),
      kickoff env text =
        (generate_clean_ner_report
            (process_ner_output (env.nerModel text).1 (env.nerModel text).2).1
            (process_ner_output (env.nerModel text).1 (env.nerModel text).2).2).bind
          (fun report =>
            (extract_diagnosis_method
                (env.prelim_diag_kickoff 3 (env.ner_validation_kickoff text report))).map
              (fun diagnosis =>
                (env.report_writing_kickoff
                   (env.ner_validation_kickoff text report)
                   (env.prelim_diag_kickoff 3 (env.ner_validation_kickoff text report))
                   (bestPracticesLoop env.tavily_search diagnosis),
                 ⟨some (env.ner_validation_kickoff text report),
                  some (env.prelim_diag_kickoff 3 (env.ner_validation_kickoff text report)),
                  some (bestPracticesLoop env.tavily_search diagnosis)⟩))) := by
  constructor
  · intro run h
    have h1 : run.indexOf FlowStep.nerReport < run.indexOf FlowStep.nerValidation :=
      validRun_indexOf_lt h (by simp [triggers])
    have h2 : run.indexOf FlowStep.nerValidation < run.indexOf FlowStep.prelimDiag :=
      validRun_indexOf_lt h (by simp [triggers])
    have h3 : run.indexOf FlowStep.prelimDiag < run.indexOf FlowStep.extractDiag :=
      validRun_indexOf_lt h (by simp [triggers])
    have h4 : run.indexOf FlowStep.extractDiag < run.indexOf FlowStep.bestPractises :=
      validRun_indexOf_lt h (by simp [triggers])
    have h5 : run.indexOf FlowStep.bestPractises < run.indexOf FlowStep.reportWriting :=
      validRun_indexOf_lt h (by simp [triggers])
    exact ⟨h1, h2, h3.trans h4, h5⟩
  · intro V R env text
    exact kickoff_eq env text

/-- C2 witness: the canonical run is a valid run and satisfies the stage
order. -/
theorem C2_witness :
    validRun canonicalRun ∧
      (canonicalRun.indexOf FlowStep.nerReport <
        canonicalRun.indexOf FlowStep.nerValidation ∧
      canonicalRun.indexOf FlowStep.nerValidation <
        canonicalRun.indexOf FlowStep.prelimDiag ∧
      canonicalRun.indexOf FlowStep.prelimDiag <
        canonicalRun.indexOf FlowStep.bestPractises ∧
      canonicalRun.indexOf FlowStep.bestPractises <
        canonicalRun.indexOf FlowStep.reportWriting) :=
  ⟨by decide, C2_stage_order.1 canonicalRun (by decide)⟩

/-- C3: the report-writing step comes after all three of validation,
preliminary diagnosis and best practices in every valid run; and on a
successful kickoff it consumes exactly the values stored under the state
keys `post_ner_report`, `prelim_report` and `best_practices_summary`,
each equal to the value the corresponding step returned. -/
theorem C3_fan_in :
    (∀ run : List FlowStep, validRun run →
      run.indexOf FlowStep.nerValidation < run.indexOf FlowStep.reportWriting ∧
      run.indexOf FlowStep.prelimDiag < run.indexOf FlowStep.reportWriting ∧
      run.indexOf FlowStep.bestPractises < run.indexOf FlowStep.reportWriting) ∧
    ∀ (V R : Type) (env : CdssEnv V R) (text : String) (r : R) (st : FlowState V),
      kickoff env text = .ok (r, st) →
      ∃ post prelim bp,
        st.post_ner_report = some post ∧
        st.prelim_report = some prelim ∧
        st.best_practices_summary = some bp ∧
        r = env.report_writing_kickoff post prelim bp ∧
        (∃ rd, initial_hugging_face_ner_report env text = .ok rd ∧
          post = env.ner_validation_kickoff rd.2 rd.1) ∧
        prelim = env.prelim_diag_kickoff 3 post ∧
        ∃ diagnosis, extract_diagnosis_method prelim = .ok diagnosis ∧
          bp = bestPracticesLoop env.tavily_search diagnosis := by
  constructor
  · intro run h
    refine ⟨?_, ?_, ?_⟩
    · exact validRun_indexOf_lt h (by simp [triggers])
    · exact validRun_indexOf_lt h (by simp [triggers])
    · exact validRun_indexOf_lt h (by simp [triggers])
  · intro V R env text r st hk
    rw [kickoff_eq] at hk
    cases hg : generate_clean_ner_report
        (process_ner_output (env.nerModel text).1 (env.nerModel text).2).1
        (process_ner_output (env.nerModel text).1 (env.nerModel text).2).2 with
    | error e => rw [hg] at hk; simp [Except.bind] at hk
    | ok report =>
      rw [hg] at hk
      simp only [Except.bind] at hk
      cases hx : extract_diagnosis_method
          (env.prelim_diag_kickoff 3 (env.ner_validation_kickoff text report)) with
      | error e => rw [hx] at hk; simp [Except.map] at hk
      | ok diagnosis =>
        rw [hx] at hk
        simp only [Except.map, Except.ok.injEq, Prod.mk.injEq] at hk
        obtain ⟨hr, hst⟩ := hk
        refine ⟨env.ner_validation_kickoff text report,
          env.prelim_diag_kickoff 3 (env.ner_validation_kickoff text report),
          bestPracticesLoop env.tavily_search diagnosis,
          ?_, ?_, ?_, ?_, ?_, rfl, diagnosis, hx, rfl⟩
        · rw [← hst]
        · rw [← hst]
        · rw [← hst]
        · rw [← hr]
        · exact ⟨(report, text),
            by simp [initial_hugging_face_ner_report, hg, Except.map], rfl⟩

/-- C3 witness: a concrete environment on which the kickoff succeeds, the
canonical run being valid for the ordering part. -/
theorem C3_witness :
    (validRun canonicalRun ∧
      kickoff sampleEnv "note" =
        .ok ("note",
          ⟨some "note", some (.rawText "note"),
           some [⟨"note", [⟨"T", "U", "C"⟩]⟩]⟩)) ∧
    ((canonicalRun.indexOf FlowStep.nerValidation <
        canonicalRun.indexOf FlowStep.reportWriting ∧
      canonicalRun.indexOf FlowStep.prelimDiag <
        canonicalRun.indexOf FlowStep.reportWriting ∧
      canonicalRun.indexOf FlowStep.bestPractises <
        canonicalRun.indexOf FlowStep.reportWriting) ∧
      ∃ post prelim bp,
        (⟨some "note", some (.rawText "note"),
          some [⟨"note", [⟨"T", "U", "C"⟩]⟩]⟩ : FlowState String).post_ner_report = some post ∧
        (⟨some "note", some (.rawText "note"),
          some [⟨"note", [⟨"T", "U", "C"⟩]⟩]⟩ : FlowState String).prelim_report = some prelim ∧
        (⟨some "note", some (.rawText "note"),
          some [⟨"note", [⟨"T", "U", "C"⟩]⟩]⟩ : FlowState String).best_practices_summary = some bp ∧
        "note" = sampleEnv.report_writing_kickoff post prelim bp ∧
        (∃ rd, initial_hugging_face_ner_report sampleEnv "note" = .ok rd ∧
          post = sampleEnv.ner_validation_kickoff rd.2 rd.1) ∧
        prelim = sampleEnv.prelim_diag_kickoff 3 post ∧
        ∃ diagnosis, extract_diagnosis_method prelim = .ok diagnosis ∧
          bp = bestPracticesLoop sampleEnv.tavily_search diagnosis) :=
  ⟨⟨by decide, by decide⟩,
    ⟨C3_fan_in.1 canonicalRun (by decide),
     C3_fan_in.2 String String sampleEnv "note" _ _ (by decide)⟩⟩

/-- C4, counterexample: `extract_diagnosis_method` does not return a list
for every input — on a dict whose `"entries"` holds a dict without the
`"preliminary_diagnosis"` key, the fallback comprehension raises an
uncaught `KeyError`. -/
theorem C4_counterexample :
    extract_diagnosis_method (.dictReport (some [.dictEntry none])) =
      .error "KeyError" := by decide

/-- C4 (amended): `extract_diagnosis_method` returns the normalized list
of strings — attribute values, dict-key values, or the singleton string
form — for every input, except that when the input is a dict containing
`"entries"` its entries must be homogeneously attribute-bearing objects
carrying the field or dicts carrying the key; outside that proviso the
fallback comprehension can raise. -/
theorem C4_amended_extract (pr : PrelimReport) (h : dictEntriesOk pr = true) :
    extract_diagnosis_method pr = .ok (extractSpec pr) := by
  cases pr with
  | objWithEntries es =>
    cases hall : es.all hasAttrPd with
    | true =>
      have hok := listComp_attr_ok hall
      simp [extract_diagnosis_method, subscriptEntries, hok, extractSpec, hall]
    | false =>
      obtain ⟨msg, hmsg⟩ := listComp_attr_error hall
      simp [extract_diagnosis_method, subscriptEntries, hmsg, extractSpec, hall]
  | dictReport entries =>
    cases entries with
    | none =>
      simp [extract_diagnosis_method, subscriptEntries, extractSpec]
    | some es =>
      simp only [dictEntriesOk] at h
      cases hall : es.all hasAttrPd with
      | true =>
        have hok := listComp_attr_ok hall
        simp [extract_diagnosis_method, subscriptEntries, hok, extractSpec]
      | false =>
        have hkey : es.all hasKeyPd = true := by
          rw [hall] at h; simpa using h
        obtain ⟨msg, hmsg⟩ := listComp_attr_error hall
        have hk := listComp_key_ok hkey
        simp [extract_diagnosis_method, subscriptEntries, hmsg, hk, extractSpec]
  | rawText s =>
    simp [extract_diagnosis_method, subscriptEntries, extractSpec]

/-- C4 witness: a well-shaped dict input normalizes without raising. -/
theorem C4_witness :
    dictEntriesOk (.dictReport (some [.dictEntry (some "Influenza")])) = true ∧
    extract_diagnosis_method (.dictReport (some [.dictEntry (some "Influenza")])) =
      .ok (extractSpec (.dictReport (some [.dictEntry (some "Influenza")]))) :=
  ⟨by decide, C4_amended_extract _ (by decide)⟩

/-- C5: each of the six POST endpoints responds with HTTP 500 whose detail
contains the raised exception text when the wrapped operation raises, with
no retry (the operation is invoked once, as the endpoint functions are
single applications of their operation), and returns the operation's
result otherwise. -/
theorem C5_endpoints :
    (∀ (kf : String → String → Except String String) (t res e : String),
      (kf t "\x7b\x7d" = .error e →
        run_ner kf t = .error ⟨500, "NER Error: " ++ e⟩ ∧
        ∃ p q, "NER Error: " ++ e = p ++ e ++ q) ∧
      (kf t "\x7b\x7d" = .ok res → run_ner kf t = .ok ⟨res⟩)) ∧
    (∀ (kf : String → Nat → Except String String) (t res e : String),
      (kf t 3 = .error e →
        run_prelim kf t = .error ⟨500, "Prelim Error: " ++ e⟩ ∧
        ∃ p q, "Prelim Error: " ++ e = p ++ e ++ q) ∧
      (kf t 3 = .ok res → run_prelim kf t = .ok ⟨res⟩)) ∧
    (∀ (kf : String → String → String → Except String String) (t res e : String),
      (kf t "Sample Prelim Diagnosis" "Sample Best Practices" = .error e →
        run_report kf t = .error ⟨500, "Report Error: " ++ e⟩ ∧
        ∃ p q, "Report Error: " ++ e = p ++ e ++ q) ∧
      (kf t "Sample Prelim Diagnosis" "Sample Best Practices" = .ok res →
        run_report kf t = .ok ⟨res⟩)) ∧
    (∀ (af : String → Except String String) (t res e : String),
      (af t = .error e →
        rag_freeform af t = .error ⟨500, "RAG Error: " ++ e⟩ ∧
        ∃ p q, "RAG Error: " ++ e = p ++ e ++ q) ∧
      (af t = .ok res → rag_freeform af t = .ok ⟨res⟩)) ∧
    (∀ (gf : String → Except String MedicineInfoOutput) (t e : String)
        (res : MedicineInfoOutput),
      (gf t = .error e →
        medicine_info gf t = .error ⟨500, "MedicineInfo Error: " ++ e⟩ ∧
        ∃ p q, "MedicineInfo Error: " ++ e = p ++ e ++ q) ∧
      (gf t = .ok res → medicine_info gf t = .ok res)) ∧
    ∀ (cf : String → String → Except String MedicineComparisonOutput)
        (t u e : String) (res : MedicineComparisonOutput),
      (cf t u = .error e →
        medicine_compare cf t u = .error ⟨500, "MedicineCompare Error: " ++ e⟩ ∧
        ∃ p q, "MedicineCompare Error: " ++ e = p ++ e ++ q) ∧
      (cf t u = .ok res → medicine_compare cf t u = .ok res) := by
  refine ⟨?_, ?_, ?_, ?_, ?_, ?_⟩
  · intro kf t res e
    exact ⟨fun he => ⟨by simp [run_ner, he], "NER Error: ", "", by simp⟩,
      fun ho => by simp [run_ner, ho]⟩
  · intro kf t res e
    exact ⟨fun he => ⟨by simp [run_prelim, he], "Prelim Error: ", "", by simp⟩,
      fun ho => by simp [run_prelim, ho]⟩
  · intro kf t res e
    exact ⟨fun he => ⟨by simp [run_report, he], "Report Error: ", "", by simp⟩,
      fun ho => by simp [run_report, ho]⟩
  · intro af t res e
    exact ⟨fun he => ⟨by simp [rag_freeform, he], "RAG Error: ", "", by simp⟩,
      fun ho => by simp [rag_freeform, ho]⟩
  · intro gf t e res
    exact ⟨fun he => ⟨by simp [medicine_info, he], "MedicineInfo Error: ", "", by simp⟩,
      fun ho => by simp [medicine_info, ho]⟩
  · intro cf t u e res
    exact ⟨fun he => ⟨by simp [medicine_compare, he], "MedicineCompare Error: ", "", by simp⟩,
      fun ho => by simp [medicine_compare, ho]⟩

/-- C5 witness: each endpoint, on an operation that raises `"boom"`,
responds with status 500 and the prefixed detail. -/
theorem C5_witness :
    run_ner (fun _ _ => .error "boom") "x" =
      .error ⟨500, "NER Error: " ++ "boom"⟩ ∧
    run_prelim (fun _ _ => .error "boom") "x" =
      .error ⟨500, "Prelim Error: " ++ "boom"⟩ ∧
    run_report (fun _ _ _ => .error "boom") "x" =
      .error ⟨500, "Report Error: " ++ "boom"⟩ ∧
    rag_freeform (fun _ => .error "boom") "x" =
      .error ⟨500, "RAG Error: " ++ "boom"⟩ ∧
    medicine_info (fun _ => .error "boom") "x" =
      .error ⟨500, "MedicineInfo Error: " ++ "boom"⟩ ∧
    medicine_compare (fun _ _ => .error "boom") "x" "y" =
      .error ⟨500, "MedicineCompare Error: " ++ "boom"⟩ :=
  ⟨((C5_endpoints.1 _ "x" "" "boom").1 rfl).1,
   ((C5_endpoints.2.1 _ "x" "" "boom").1 rfl).1,
   ((C5_endpoints.2.2.1 _ "x" "" "boom").1 rfl).1,
   ((C5_endpoints.2.2.2.1 _ "x" "" "boom").1 rfl).1,
   ((C5_endpoints.2.2.2.2.1 _ "x" "boom" ⟨"", "", [], [], none, none⟩).1 rfl).1,
   ((C5_endpoints.2.2.2.2.2 _ "x" "y" "boom"
      ⟨⟨"", "", [], [], none, none⟩, ⟨"", "", [], [], none, none⟩, true, ""⟩).1 rfl).1⟩

/-- C6: the preliminary-diagnosis stage requests exactly three entries
(`output_count = 3` in the kickoff inputs, stored and returned), and the
(spec-modelled) crew output conforms to `PreliminaryDiagnosisListOutput`:
a list of three entries, each carrying a diagnosis, a reasoning, and
recommendations. -/
theorem C6_prelim_stage :
    (∀ (V R : Type) (env : CdssEnv V R) (st : FlowState V) (post : V),
      (prelim_diag_method env st post).2 = env.prelim_diag_kickoff 3 post ∧
      (prelim_diag_method env st post).1.prelim_report =
        some (env.prelim_diag_kickoff 3 post)) ∧
    ∀ (V : Type) (gen : Nat → PreliminaryDiagnosisOutput) (post : V),
      (prelim_diag_crew_kickoff gen 3 post).entries.length = 3 ∧
      ∀ entry ∈ (prelim_diag_crew_kickoff gen 3 post).entries,
        ∃ d re recs, entry = ⟨d, re, recs⟩ := by
  constructor
  · intro V R env st post
    exact ⟨rfl, rfl⟩
  · intro V gen post
    refine ⟨by simp [prelim_diag_crew_kickoff], ?_⟩
    intro entry _
    exact ⟨entry.preliminary_diagnosis, entry.reasoning, entry.recommendations, rfl⟩

/-- A concrete generator for the modelled preliminary-diagnosis crew. -/
def sampleGen : Nat → PreliminaryDiagnosisOutput := fun _ => ⟨"D", "R", ["rec"]⟩

/-- C6 witness: a concrete generator yields three well-formed entries. -/
theorem C6_witness :
    (prelim_diag_crew_kickoff sampleGen 3 "post").entries.length = 3 ∧
    (⟨"D", "R", ["rec"]⟩ : PreliminaryDiagnosisOutput) ∈
      (prelim_diag_crew_kickoff sampleGen 3 "post").entries ∧
    ∃ d re recs, (⟨"D", "R", ["rec"]⟩ : PreliminaryDiagnosisOutput) =
      ⟨d, re, recs⟩ :=
  ⟨(C6_prelim_stage.2 String sampleGen "post").1, by decide,
   (C6_prelim_stage.2 String sampleGen "post").2 _ (by decide)⟩

/-- C7: `answer_query` retrieves the `k = 3` most similar documents, joins
their page contents with newlines into the prompt together with the
question, and returns the LLM response to that prompt; the knowledge base
is loaded from the persisted index when it exists and is otherwise seeded
with the single Paracetamol document and saved. -/
theorem C7_rag_service :
    (∀ (db : VectorStore) (llm : LLMClient) (query : String),
      answer_query db llm query =
        llm.invoke (ragPrompt
          (String.intercalate "\n"
            ((db.similarity_search query 3).map (fun doc => doc.page_content)))
          query) ∧
      ∃ p q, ragPrompt
          (String.intercalate "\n"
            ((db.similarity_search query 3).map (fun doc => doc.page_content)))
          query = p ++ query ++ q) ∧
    ∀ (load_local : VectorStore) (from_documents : List Document → VectorStore),
      initFaissDb true load_local from_documents = (load_local, false) ∧
      initFaissDb false load_local from_documents =
        (from_documents [⟨"Paracetamol is used for fever and mild pain."⟩],
          true) := by
  constructor
  · intro db llm query
    refine ⟨rfl, ?_⟩
    exact ⟨"You are a helpful medical assistant.\n    Use the following retrieved medical knowledge to answer:\n\n    Context:\n    "
        ++ String.intercalate "\n"
             ((db.similarity_search query 3).map (fun doc => doc.page_content))
        ++ "\n\n    Question: ",
      "\n    Answer:", rfl⟩
  · intro load_local from_documents
    exact ⟨rfl, rfl⟩

/-- C8: `best_practises` produces exactly one summary per diagnosis, in
order, pairing each diagnosis with the reshaped search results whose score
(0 when missing, hence excluded) strictly exceeds 0.5. -/
theorem C8_best_practices (search : String → TavilyResponse)
    (diagnosis : List String) :
    (bestPracticesLoop search diagnosis).length = diagnosis.length ∧
    (∀ (i : Nat) (h : i < diagnosis.length),
      (bestPracticesLoop search diagnosis)[i]? =
        some ⟨diagnosis[i],
          tavilyFilteredSummaries
            (search ("Best Practices for " ++ diagnosis[i]))⟩) ∧
    ∀ resp : TavilyResponse, ∀ p ∈ tavilyFilteredSummaries resp,
      ∃ r ∈ resp.results.getD [], mkRat 1 2 < r.score.getD 0 ∧
        p = ⟨r.title.getD "", r.url.getD "", r.content.getD ""⟩ := by
  refine ⟨?_, ?_, ?_⟩
  · rw [bestPracticesLoop_eq_map]; simp
  · intro i h
    rw [bestPracticesLoop_eq_map, List.getElem?_map]
    simp [List.getElem?_eq_getElem h]
  · intro resp p hp
    simp only [tavilyFilteredSummaries, List.mem_map, List.mem_filter] at hp
    obtain ⟨r, ⟨hr, hsc⟩, rfl⟩ := hp
    exact ⟨r, hr, by simpa using hsc, rfl⟩

/-- A concrete Tavily client: one scored result, one without a score. -/
def sampleSearch : String → TavilyResponse :=
  fun _ => ⟨some [⟨some "t", none, some "c", some 1⟩, ⟨none, none, none, none⟩]⟩

/-- C8 witness: one diagnosis, one above-threshold result kept, the
missing-score result excluded. -/
theorem C8_witness :
    (0 < (["flu"] : List String).length ∧
      (⟨"t", "", "c"⟩ : PracticeSummary) ∈
        tavilyFilteredSummaries (sampleSearch "q")) ∧
    ((bestPracticesLoop sampleSearch ["flu"])[0]? =
      some ⟨"flu", tavilyFilteredSummaries
        (sampleSearch ("Best Practices for " ++ "flu"))⟩ ∧
     ∃ r ∈ (sampleSearch "q").results.getD [], mkRat 1 2 < r.score.getD 0 ∧
       (⟨"t", "", "c"⟩ : PracticeSummary) =
         ⟨r.title.getD "", r.url.getD "", r.content.getD ""⟩) :=
  ⟨⟨by decide, by decide⟩,
   ⟨(C8_best_practices sampleSearch ["flu"]).2.1 0 (by decide),
    (C8_best_practices sampleSearch ["flu"]).2.2 (sampleSearch "q")
      ⟨"t", "", "c"⟩ (by decide)⟩⟩

/-- C9: when no tag category is `"SEVERITY"` and every `B-`/`I-` tag
category occurs in `unique_tags`, `generate_clean_ner_report` returns
normally, its keys are a subset of `unique_tags` with `"SEVERITY"` never
among them, and every entity is a space-join of tokens among which
`"[CLS]"` and `"[SEP]"` never occur. -/
theorem C9_clean_report (tagged_tokens : List (String × String))
    (unique_tags : List String)
    (h1 : ∀ p ∈ tagged_tokens, strDrop p.2 2 ≠ "SEVERITY")
    (h2 : ∀ p ∈ tagged_tokens,
      strStartsWith p.2 "B-" = true ∨ strStartsWith p.2 "I-" = true →
        strDrop p.2 2 ∈ unique_tags) :
    ∃ r, generate_clean_ner_report tagged_tokens unique_tags = .ok r ∧
      (∀ k ∈ r.map Prod.fst, k ∈ unique_tags ∧ k ≠ "SEVERITY") ∧
      ∀ kv ∈ r, ∀ ent ∈ kv.2, ∃ toks, ent = String.intercalate " " toks ∧
        ∀ t ∈ toks, t ≠ "[CLS]" ∧ t ≠ "[SEP]" := by
  have hkeys0 : ((firstOccur (unique_tags.filter (fun t => t != "SEVERITY"))).map
      (fun t => (t, ([] : List String)))).map Prod.fst =
      firstOccur (unique_tags.filter (fun t => t != "SEVERITY")) := by
    have hcomp : (Prod.fst ∘ fun t : String => (t, ([] : List String))) = id := rfl
    rw [List.map_map, hcomp, List.map_id]
  have hB : ∀ p ∈ tagged_tokens, strStartsWith p.2 "B-" = true →
      strDrop p.2 2 ∈ ((firstOccur (unique_tags.filter (fun t => t != "SEVERITY"))).map
        (fun t => (t, ([] : List String)))).map Prod.fst := by
    intro p hp hBp
    rw [hkeys0, mem_firstOccur, List.mem_filter]
    refine ⟨h2 p hp (Or.inl hBp), ?_⟩
    simpa using h1 p hp
  obtain ⟨r, he, hkeysr, hent⟩ :=
    reportLoop_spec tagged_tokens
      ((firstOccur (unique_tags.filter (fun t => t != "SEVERITY"))).map
        (fun t => (t, ([] : List String)))) [] none
      hB ⟨by simp, by simp, by simp⟩ (entOk_nil_values _)
  refine ⟨r, he, ?_, hent⟩
  intro k hk
  rw [hkeysr, hkeys0, mem_firstOccur, List.mem_filter] at hk
  exact ⟨hk.1, by simpa using hk.2⟩

/-- C9 witness: a two-token disease entity with a skipped separator
token. -/
theorem C9_witness :
    ((∀ p ∈ ([("▁diab", "B-DISEASE"), ("etes", "I-DISEASE"), ("[SEP]", "I-DISEASE")] :
        List (String × String)), strDrop p.2 2 ≠ "SEVERITY") ∧
     (∀ p ∈ ([("▁diab", "B-DISEASE"), ("etes", "I-DISEASE"), ("[SEP]", "I-DISEASE")] :
        List (String × String)),
        strStartsWith p.2 "B-" = true ∨ strStartsWith p.2 "I-" = true →
          strDrop p.2 2 ∈ ["DISEASE"])) ∧
    ∃ r, generate_clean_ner_report
        [("▁diab", "B-DISEASE"), ("etes", "I-DISEASE"), ("[SEP]", "I-DISEASE")]
        ["DISEASE"] = .ok r ∧
      (∀ k ∈ r.map Prod.fst, k ∈ ["DISEASE"] ∧ k ≠ "SEVERITY") ∧
      ∀ kv ∈ r, ∀ ent ∈ kv.2, ∃ toks, ent = String.intercalate " " toks ∧
        ∀ t ∈ toks, t ≠ "[CLS]" ∧ t ≠ "[SEP]" :=
  ⟨⟨by decide, by decide⟩, C9_clean_report _ _ (by decide) (by decide)⟩

/-- C10: `process_ner_output` returns a filtered token-label list in which
no pair carries `"O"`, and a duplicate-free `unique_tags` list whose
elements are exactly the categories of predicted labels beginning with
`"B"`. -/
theorem C10_process_ner (tokens predicted_labels : List String) :
    (∀ p ∈ (process_ner_output tokens predicted_labels).1, p.2 ≠ "O") ∧
    (process_ner_output tokens predicted_labels).2.Nodup ∧
    ∀ x, x ∈ (process_ner_output tokens predicted_labels).2 ↔
      ∃ l ∈ predicted_labels, strStartsWith l "B" = true ∧ strDrop l 2 = x := by
  obtain ⟨hnd, hmem⟩ := uniqueTagsFold_spec predicted_labels [] (by simp)
  refine ⟨?_, hnd, ?_⟩
  · intro p hp
    have hp2 : p ∈ ((tokens.zip predicted_labels).filter
        (fun q => q.2 != "O")).map (fun q => (lstripChar '▁' q.1, q.2)) := hp
    obtain ⟨q, hq, rfl⟩ := List.mem_map.1 hp2
    have hO := (List.mem_filter.1 hq).2
    simpa using hO
  · intro x
    have hx := hmem x
    simpa [process_ner_output] using hx

/-- C10 witness: a concrete run keeping a non-`"O"` pair and one unique
tag. -/
theorem C10_witness :
    ("a", "B-X") ∈ (process_ner_output ["▁a"] ["B-X"]).1 ∧
    ("a", "B-X").2 ≠ "O" ∧
    (process_ner_output ["▁a"] ["B-X"]).2.Nodup :=
  ⟨by decide,
   (C10_process_ner ["▁a"] ["B-X"]).1 ("a", "B-X") (by decide),
   (C10_process_ner ["▁a"] ["B-X"]).2.1⟩

end CapestoneML
